import Mathlib

/-!
# Verification of the boss-timer scheduling core (`timer_app_streamlit.py`)

Shallow embedding of the scheduling/time-arithmetic engine of the repository's
single source file.  Conventions of the embedding:

* Timestamps (`datetime` values in the fixed `Asia/Manila` offset) are modelled
  as integers: seconds since 1970-01-01 00:00 local time.  `Asia/Manila` is a
  fixed UTC+8 offset with no DST, so `datetime` arithmetic in the source is
  plain second arithmetic.  1970-01-01 is a Thursday, so Python's
  `weekday()` (Monday = 0) is `(t / 86400 + 3) % 7` with floor division.
* `timedelta` values are modelled as integer seconds (every duration the
  program builds is a whole number of seconds); where the source compares
  `total_seconds()` (a float that may carry sub-second parts from
  `datetime.now()`), the model uses `ℚ`.
* Python `float` values that the program treats arithmetically
  (`interval_minutes`) are modelled as `ℚ`; at every concrete constant used by
  the program (`20.1666667`, `60`, …) the binary-float and rational readings
  agree on all operations performed (`* 60`, `int(...)`).
* Fallible Python code is modelled with `Except PyErr`; an uncaught exception
  is an `Except.error`.
-/

/-- Python `int(x)` on a real value truncates toward zero. -/
def pyInt (q : ℚ) : ℤ := if 0 ≤ q then ⌊q⌋ else ⌈q⌉

/-- The hard-coded interval constant `20.1666667` (20 minutes 10 seconds,
appearing as `FIXED_INTERVAL_MINUTES`, the default-substitution constant and
`default_boss_data`'s interval). -/
def fixedIntervalMinutes : ℚ := 201666667 / 10000000

/-- `TimerEntry.update_next`'s `while` loop (lines 142–146 of the source):
`while next_time < now: last_time = next_time; next_time = last_time + interval`.
The returned value is the final `next_time`.  The guard is strengthened with
`0 < interval` so the recursion is well founded; for `interval ≤ 0` the
source loop never terminates when `next < now` (that configuration is studied
through `update_next_fuel`), and when the source loop terminates the two
guards agree. -/
def update_next (interval next now : ℤ) : ℤ :=
  if _h : 0 < interval ∧ next < now then
    update_next interval (next + interval) now
  else
    next
termination_by (now - next).toNat
decreasing_by
  omega

/-- Fuel-instrumented version of the same loop: `some` is the loop's result
when it finishes within the given number of iterations, `none` means the fuel
ran out with the guard still true.  The loop terminates iff some fuel
suffices. -/
def update_next_fuel : ℕ → ℤ → ℤ → ℤ → Option ℤ
  | 0, _, next, now => if next < now then none else some next
  | fuel + 1, interval, next, now =>
      if next < now then update_next_fuel fuel interval (next + interval) now
      else some next

/-- `nextSpawn(now)` for a timer with the given whole-second interval and
last-kill time: the constructor sets `next_time = last_time + interval`
(line 140) and `update_next` rolls it forward. -/
def nextSpawn (interval last now : ℤ) : ℤ :=
  update_next interval (last + interval) now

/-- `TimerEntry.countdown` (lines 148–149): `next_time - now`. -/
def countdown (next now : ℤ) : ℤ := next - now

/-- Two-digit zero padding, as produced by the `{x:02}` format specifiers. -/
def pad2 (n : ℕ) : String := if n < 10 then "0" ++ toString n else toString n

/-- `TimerEntry.format_countdown` (lines 151–161): negative durations render
as `00:00:00`; otherwise `Dd HH:MM:SS` when at least one day remains, else
`HH:MM:SS`.  (`format_timedelta`, lines 165–174, is the identical code.) -/
def format_countdown (td : ℤ) : String :=
  let total_seconds := td
  if total_seconds < 0 then "00:00:00"
  else
    let s := total_seconds.toNat
    let days := s / 86400
    let rem := s % 86400
    let hours := rem / 3600
    let rem2 := rem % 3600
    let minutes := rem2 / 60
    let seconds := rem2 % 60
    if days > 0 then
      toString days ++ "d " ++ pad2 hours ++ ":" ++ pad2 minutes ++ ":" ++ pad2 seconds
    else
      pad2 hours ++ ":" ++ pad2 minutes ++ ":" ++ pad2 seconds

/-! ## Basic loop lemmas -/

theorem update_next_ge (interval next now : ℤ) (hi : 1 ≤ interval) :
    now ≤ update_next interval next now := by
  rw [update_next]
  split
  · exact update_next_ge interval (next + interval) now hi
  · rename_i h
    push_neg at h
    exact h (by omega)
termination_by (now - next).toNat
decreasing_by
  rename_i h
  omega

theorem update_next_lt (interval next now : ℤ) (hi : 1 ≤ interval)
    (h : next < now + interval) :
    update_next interval next now < now + interval := by
  rw [update_next]
  split
  · rename_i hg
    exact update_next_lt interval (next + interval) now hi (by omega)
  · exact h
termination_by (now - next).toNat
decreasing_by
  rename_i hg
  omega

theorem update_next_fuel_terminates (interval next now : ℤ) (hi : 1 ≤ interval) :
    ∃ fuel, update_next_fuel fuel interval next now
      = some (update_next interval next now) := by
  by_cases h : next < now
  · obtain ⟨f, hf⟩ := update_next_fuel_terminates interval (next + interval) now hi
    refine ⟨f + 1, ?_⟩
    rw [update_next_fuel, if_pos h, hf]
    conv_rhs => rw [update_next, dif_pos ⟨by omega, h⟩]
  · refine ⟨0, ?_⟩
    rw [update_next_fuel, if_neg h, update_next, dif_neg (by tauto)]
termination_by (now - next).toNat
decreasing_by
  omega

theorem update_next_fuel_nonpos (fuel : ℕ) (interval next now : ℤ)
    (hi : interval ≤ 0) (h : next < now) :
    update_next_fuel fuel interval next now = none := by
  induction fuel generalizing next with
  | zero => rw [update_next_fuel, if_pos h]
  | succ f ih =>
      rw [update_next_fuel, if_pos h]
      exact ih (next + interval) (by omega)

theorem pyInt_fixedIntervalMul60 : pyInt (fixedIntervalMinutes * 60) = 1210 := by
  rw [pyInt, if_pos (by norm_num [fixedIntervalMinutes]), Int.floor_eq_iff]
  constructor
  · norm_num [fixedIntervalMinutes]
  · norm_num [fixedIntervalMinutes]

/-! ## Claim C1 -/

/-- C1 (counterexample to the claim as stated): for the Waterlord timer
(interval 1210 s) with `lastSpawnTime = now = 0`, the roll-forward loop never
runs and `nextSpawn(now) = 1210`, so `nextSpawn(now) - now` equals the full
interval instead of being strictly below it. -/
theorem C1_claim_counterexample :
    ¬ ((0 : ℤ) ≤ nextSpawn 1210 0 0 ∧ nextSpawn 1210 0 0 - 0 < 1210) := by
  have h : nextSpawn 1210 0 0 = 1210 := by
    rw [nextSpawn, update_next, dif_neg (by norm_num)]
    norm_num
  rw [h]
  norm_num

/-- C1 (amended): for every timer whose derived whole-second interval is at
least 1 and every `now` with `lastSpawnTime < now`, after rolling forward
`nextSpawn(now) >= now` and `nextSpawn(now) - now < interval`; the projection
never lags by more than one full interval once the last spawn lies strictly
in the past. -/
theorem C1_nextSpawn_window (interval last now : ℤ)
    (hi : 1 ≤ interval) (hl : last < now) :
    now ≤ nextSpawn interval last now ∧ nextSpawn interval last now - now < interval := by
  constructor
  · exact update_next_ge interval (last + interval) now hi
  · have h := update_next_lt interval (last + interval) now hi (by omega)
    rw [nextSpawn]
    omega

/-- Witness for C1 at the Waterlord interval, `last = 0`, `now = 100`. -/
theorem C1_witness :
    (1 : ℤ) ≤ 1210 ∧ (0 : ℤ) < 100 ∧
      ((100 : ℤ) ≤ nextSpawn 1210 0 100 ∧ nextSpawn 1210 0 100 - 100 < 1210) :=
  ⟨by norm_num, by norm_num, C1_nextSpawn_window 1210 0 100 (by norm_num) (by norm_num)⟩

/-! ## Claim C6 -/

/-- C6: for a timer with a positive whole-second interval, after the
roll-forward `countdown(now)` is exactly `nextSpawn(now) - now` and is never
negative; and `format_countdown` clamps any negative (stale) duration to
`00:00:00`. -/
theorem C6_countdown_nonneg (interval next now td : ℤ)
    (hi : 1 ≤ interval) (htd : td < 0) :
    countdown (update_next interval next now) now = update_next interval next now - now ∧
    0 ≤ countdown (update_next interval next now) now ∧
    format_countdown td = "00:00:00" := by
  refine ⟨rfl, ?_, ?_⟩
  · have h := update_next_ge interval next now hi
    rw [countdown]
    omega
  · rw [format_countdown]
    simp only [htd, if_pos]

/-- Witness for C6 at the Waterlord interval, `next = 0`, `now = 5000`,
stale duration `-5`. -/
theorem C6_witness :
    (1 : ℤ) ≤ 1210 ∧ (-5 : ℤ) < 0 ∧
      (countdown (update_next 1210 0 5000) 5000 = update_next 1210 0 5000 - 5000 ∧
       0 ≤ countdown (update_next 1210 0 5000) 5000 ∧
       format_countdown (-5) = "00:00:00") :=
  ⟨by norm_num, by norm_num, C6_countdown_nonneg 1210 0 5000 (-5) (by norm_num) (by norm_num)⟩

/-! ## Claim C10 -/

/-- C10 (counterexample to the claim as stated): `intervalMinutes = 0.01` is
positive, yet the derived whole-second interval `int(0.01 * 60) = int(0.6)`
is `0`, not at least `1`; with that interval the roll-forward loop never
advances and makes no progress even after 1000 iterations. -/
theorem C10_claim_counterexample :
    (0 : ℚ) < 1 / 100 ∧ pyInt ((1 / 100 : ℚ) * 60) = 0 ∧
      update_next_fuel 1000 (pyInt ((1 / 100 : ℚ) * 60)) 0 1 = none := by
  have hp : pyInt ((1 / 100 : ℚ) * 60) = 0 := by
    rw [pyInt, if_pos (by norm_num), Int.floor_eq_iff]
    constructor
    · norm_num
    · norm_num
  refine ⟨by norm_num, hp, ?_⟩
  rw [hp]
  exact update_next_fuel_nonpos 1000 0 0 1 (le_refl 0) (by norm_num)

/-- C10 (amended): for every timer whose derived whole-second interval
`int(intervalMinutes * 60)` is at least 1 — in particular any
`intervalMinutes ≥ 1/60` — the roll-forward loop terminates (some finite fuel
reproduces the loop's result), because each iteration strictly advances the
candidate time. -/
theorem C10_loop_terminates (m : ℚ) (next now : ℤ)
    (hm : 1 ≤ pyInt (m * 60)) :
    (∀ t : ℤ, t < t + pyInt (m * 60)) ∧
    ∃ fuel, update_next_fuel fuel (pyInt (m * 60)) next now
      = some (update_next (pyInt (m * 60)) next now) :=
  ⟨fun t => by omega, update_next_fuel_terminates (pyInt (m * 60)) next now hm⟩

/-- Witness for C10 at the Waterlord minute value `20.1666667`. -/
theorem C10_witness :
    (1 ≤ pyInt (fixedIntervalMinutes * 60)) ∧
    ((∀ t : ℤ, t < t + pyInt (fixedIntervalMinutes * 60)) ∧
     ∃ fuel, update_next_fuel fuel (pyInt (fixedIntervalMinutes * 60)) 0 100
       = some (update_next (pyInt (fixedIntervalMinutes * 60)) 0 100)) :=
  ⟨by rw [pyInt_fixedIntervalMul60]; norm_num,
   C10_loop_terminates fixedIntervalMinutes 0 100
     (by rw [pyInt_fixedIntervalMul60]; norm_num)⟩

/-! ## Weekly schedule (`get_next_weekly_spawn`, lines 209–233) -/

/-- Python `datetime.weekday()` (Monday = 0) of a model timestamp:
1970-01-01 was a Thursday (= 3). -/
def weekday (t : ℤ) : ℤ := (t / 86400 + 3) % 7

/-- The `weekday_map` dict of lines 215–223. -/
def weekday_map : List (String × ℤ) :=
  [("Monday", 0), ("Tuesday", 1), ("Wednesday", 2), ("Thursday", 3),
   ("Friday", 4), ("Saturday", 5), ("Sunday", 6)]

/-- `get_next_weekly_spawn` for a slot `(target_weekday, target_time)` where
`target_time` is the parsed `"%H:%M"` time of day in seconds:
`days_ahead = (target_weekday - now.weekday()) % 7`; the candidate is built on
`date(now + days_ahead days)` at `target_time`; if the candidate is `<= now`,
7 days are added. -/
def get_next_weekly_spawn (target_weekday target_time now : ℤ) : ℤ :=
  let days_ahead := (target_weekday - weekday now) % 7
  let spawn_date := (now + days_ahead * 86400) / 86400
  let spawn_dt := spawn_date * 86400 + target_time
  if spawn_dt ≤ now then spawn_dt + 7 * 86400 else spawn_dt

/-- C4: for every weekly slot and every `now`, the weekly candidate is
strictly in the future (never equal to `now`) and at most 7 days after
`now`.  `target_time` ranges over the times of day parsable from `"%H:%M"`. -/
theorem C4_weekly_spawn_window (target_weekday target_time now : ℤ)
    (h0 : 0 ≤ target_time) (h1 : target_time < 86400) :
    now < get_next_weekly_spawn target_weekday target_time now ∧
    get_next_weekly_spawn target_weekday target_time now - now ≤ 7 * 86400 := by
  simp only [get_next_weekly_spawn, weekday]
  split <;> omega

/-- Witness for C4: the Capricorn slot "Sunday 20:00" (weekday 6,
time of day 72000 s) at `now = 0` (a Thursday midnight). -/
theorem C4_witness :
    (0 : ℤ) ≤ 72000 ∧ (72000 : ℤ) < 86400 ∧
      ((0 : ℤ) < get_next_weekly_spawn 6 72000 0 ∧
       get_next_weekly_spawn 6 72000 0 - 0 ≤ 7 * 86400) :=
  ⟨by norm_num, by norm_num,
   C4_weekly_spawn_window 6 72000 0 (by norm_num) (by norm_num)⟩

/-! ## Global winner selection (`next_boss_banner`, lines 237–271) -/

/-- The banner's chosen next spawn: name, spawn time, countdown and whether it
came from the weekly schedule. -/
structure Chosen where
  name : String
  time : ℤ
  cd : ℚ
  from_weekly : Bool
deriving DecidableEq

/-- Lines 261–271 of `next_boss_banner`: start from the soonest field timer;
switch to the soonest weekly occurrence only when its countdown is strictly
smaller (`weekly_best_cd < field_cd`). -/
def choose_next (field_name : String) (field_time : ℤ) (field_cd : ℚ)
    (weekly : Option (String × ℤ × ℚ)) : Chosen :=
  match weekly with
  | some (wn, wt, wcd) =>
      if wcd < field_cd then ⟨wn, wt, wcd, true⟩
      else ⟨field_name, field_time, field_cd, false⟩
  | none => ⟨field_name, field_time, field_cd, false⟩

/-- C3: the banner winner between the soonest field timer and the soonest
weekly occurrence is the one with the strictly smaller countdown (the chosen
countdown is their minimum), and on an exact tie the field timer is
selected. -/
theorem C3_tie_break (fn : String) (ft : ℤ) (fcd : ℚ)
    (wn : String) (wt : ℤ) (wcd : ℚ) :
    ((choose_next fn ft fcd (some (wn, wt, wcd))).from_weekly = true ↔ wcd < fcd) ∧
    ((choose_next fn ft fcd (some (wn, wt, wcd))).from_weekly = false ↔ fcd ≤ wcd) ∧
    ((choose_next fn ft fcd (some (wn, wt, wcd))).cd = min wcd fcd) ∧
    (choose_next fn ft fcd (some (wn, wt, fcd)) = ⟨fn, ft, fcd, false⟩) := by
  refine ⟨?_, ?_, ?_, ?_⟩
  · rw [choose_next]
    split <;> rename_i h <;> simp [h]
  · rw [choose_next]
    split <;> rename_i h
    · simp [not_le.mpr h]
    · simp [le_of_not_lt h]
  · rw [choose_next]
    split <;> rename_i h
    · simp [min_eq_left (le_of_lt h)]
    · simp [min_eq_right (le_of_not_lt h)]
  · rw [choose_next, if_neg (lt_irrefl fcd)]

/-! ## Severity classification (lines 276–281 and 355–361) -/

/-- The banner's countdown colour (lines 276–281): `remaining <= 60` → red,
`<= 300` → orange, else limegreen. -/
def banner_color (remaining : ℚ) : String :=
  if remaining ≤ 60 then "red"
  else if remaining ≤ 300 then "orange"
  else "limegreen"

/-- The field-table row colour (lines 355–361): `secs_left <= 60` → red,
`<= 300` → orange, else green. -/
def table_color (secs_left : ℚ) : String :=
  if secs_left ≤ 60 then "red"
  else if secs_left ≤ 300 then "orange"
  else "green"

/-- The severity classification in the words of the specification (§4.3):
`countdown <= 60s → "critical"`, `<= 300s → "warning"`, else `"normal"`.
Second definition for the refinement comparison against the code's two colour
functions. -/
def severity_spec (cd : ℚ) : String :=
  if cd ≤ 60 then "critical"
  else if cd ≤ 300 then "warning"
  else "normal"

/-- C5: severity is a pure function of the countdown duration with thresholds
60 s and 300 s, and the banner and the per-row table colouring classify every
countdown identically (red ↔ critical, orange ↔ warning, and the remaining
tier is "normal", rendered limegreen in the banner and green in the table). -/
theorem C5_severity_thresholds (cd : ℚ) :
    (severity_spec cd = "critical" ↔ banner_color cd = "red") ∧
    (severity_spec cd = "warning" ↔ banner_color cd = "orange") ∧
    (severity_spec cd = "normal" ↔ banner_color cd = "limegreen") ∧
    (severity_spec cd = "critical" ↔ table_color cd = "red") ∧
    (severity_spec cd = "warning" ↔ table_color cd = "orange") ∧
    (severity_spec cd = "normal" ↔ table_color cd = "green") := by
  rw [severity_spec, banner_color, table_color]
  split_ifs <;> refine ⟨?_, ?_, ?_, ?_, ?_, ?_⟩ <;> decide

/-! ## JSON persistence (`_safe_load_json`, `load_boss_data`, `save_boss_data`,
lines 37–100)

The persisted file is modelled as an `Option JsonVal`: `none` when the file is
missing or `json.load` fails (both cases where `_safe_load_json` returns its
`default`, here `None`), `some v` when it parses to the JSON value `v`.
JSON booleans and `null` never occur in files the program writes and are not
modelled.  An uncaught Python exception is `Except.error`. -/

inductive JsonVal where
  | num (q : ℚ)
  | str (s : String)
  | list (elems : List JsonVal)
  | dict (fields : List (String × JsonVal))

inductive PyErr where
  | keyError
  | typeError
  | indexError
deriving DecidableEq

/-- A record as it exists after `load_boss_data`'s cleaning loop: the raw
`name` and `last_time_str` JSON values and the `float`-cast interval. -/
abbrev LoadedRec := JsonVal × ℚ × JsonVal

/-- Python truthiness of a JSON value (`if data and ...`). -/
def pyTruthy : JsonVal → Bool
  | .num q => q != 0
  | .str s => s != ""
  | .list l => !l.isEmpty
  | .dict d => !d.isEmpty

/-- Python `data[0]`: first element of a list, first character of a string,
`KeyError` on a (string-keyed) dict, `TypeError` on a number. -/
def pySub0 : JsonVal → Except PyErr JsonVal
  | .list [] => .error .indexError
  | .list (x :: _) => .ok x
  | .str s =>
      match s.toList with
      | [] => .error .indexError
      | c :: _ => .ok (.str (String.mk [c]))
  | .num _ => .error .typeError
  | .dict _ => .error .keyError

/-- Python `for entry in data`: lists yield elements, strings yield
characters, dicts yield their keys, numbers raise `TypeError`. -/
def pyIter : JsonVal → Except PyErr (List JsonVal)
  | .list l => .ok l
  | .str s => .ok (s.toList.map fun c => .str (String.mk [c]))
  | .dict d => .ok (d.map fun p => .str p.1)
  | .num _ => .error .typeError

/-- Python `d[k]` for a string key `k`. -/
def pyGetItem : JsonVal → String → Except PyErr JsonVal
  | .dict fields, k =>
      match fields.lookup k with
      | some v => .ok v
      | none => .error .keyError
  | _, _ => .error .typeError

/-- Digit-run scanner: accumulated value, number of digits consumed, rest. -/
def takeDigitsAux : ℕ → ℕ → List Char → ℕ × ℕ × List Char
  | v, k, [] => (v, k, [])
  | v, k, c :: r =>
      if c.isDigit then takeDigitsAux (v * 10 + (c.toNat - 48)) (k + 1) r
      else (v, k, c :: r)

/-- Python `float(s)` on a string: optional sign, decimal digits with at most
one decimal point, at least one digit; `none` models the raised `ValueError`.
(Exponent, `inf`/`nan`, whitespace and underscore forms accepted by Python are
not modelled; no claim depends on them.) -/
def parseFloatStr (s : String) : Option ℚ :=
  let cs := s.toList
  let signBody : ℚ × List Char :=
    match cs with
    | '-' :: r => (-1, r)
    | '+' :: r => (1, r)
    | r => (1, r)
  let sign := signBody.1
  let body := signBody.2
  let ipRes := takeDigitsAux 0 0 body
  match ipRes.2.2 with
  | [] => if ipRes.2.1 = 0 then none else some (sign * ipRes.1)
  | '.' :: r2 =>
      let fpRes := takeDigitsAux 0 0 r2
      match fpRes.2.2 with
      | [] =>
          if ipRes.2.1 = 0 && fpRes.2.1 = 0 then none
          else some (sign * ((ipRes.1 : ℚ) + (fpRes.1 : ℚ) / (10 : ℚ) ^ fpRes.2.1))
      | _ => none
  | _ => none

/-- Python `float(x)` on an arbitrary JSON value; `none` models a raised
`TypeError`/`ValueError` (both caught by the cleaning loop). -/
def pyFloat : JsonVal → Option ℚ
  | .num q => some q
  | .str s => parseFloatStr s
  | .list _ => none
  | .dict _ => none

/-- Lines 60–65: `(d["name"], d["interval_minutes"], d["last_time_str"])` for
one entry of a legacy list-of-dicts file. -/
def dictToTriple (d : JsonVal) : Except PyErr JsonVal := do
  let n ← pyGetItem d "name"
  let i ← pyGetItem d "interval_minutes"
  let l ← pyGetItem d "last_time_str"
  pure (.list [n, i, l])

/-- Lines 57–65: if the loaded value is truthy and its first element is a
dict, rewrite every entry from the legacy dict shape into a triple; the
result is the sequence of entries the cleaning loop then iterates. -/
def normalize_legacy (v : JsonVal) : Except PyErr (List JsonVal) :=
  if pyTruthy v then
    match pySub0 v with
    | .error e => .error e
    | .ok x =>
        match x with
        | .dict _ => do
            let items ← pyIter v
            items.mapM dictToTriple
        | _ => pyIter v
  else pyIter v

/-- Lines 68–77, one entry: keep only list/tuple-like entries of length 3,
casting the interval with `float(...)` and substituting the default
`20.1666667` when that raises. -/
def cleanEntry : JsonVal → Option LoadedRec
  | .list [n, i, l] => some (n, (pyFloat i).getD fixedIntervalMinutes, l)
  | _ => none

/-- Lines 68–77, the whole cleaning loop. -/
def clean (entries : List JsonVal) : List LoadedRec := entries.filterMap cleanEntry

/-- `default_boss_data` (lines 31–33), as the cleaning loop would represent
it. -/
def default_boss_data : List LoadedRec :=
  [(.str "Waterlord", fixedIntervalMinutes, .str "2025-09-20 08:00 AM")]

/-- Python `x == "Waterlord"` where `x` is an arbitrary JSON value: equality
holds only for the equal string, and is `False` (no error) otherwise. -/
def jvalEqStr : JsonVal → String → Bool
  | .str s, t => s == t
  | _, _ => false

/-- Lines 52–77: `_safe_load_json` plus normalization and cleaning.  `none`
(missing or corrupt file) yields `default_boss_data`. -/
def parse_records : Option JsonVal → Except PyErr (List LoadedRec)
  | none => .ok default_boss_data
  | some v => (normalize_legacy v).map clean

/-- Lines 79–90: keep only `"Waterlord"` entries; take the first one's
`last_time_str` and force the interval to `FIXED_INTERVAL_MINUTES`; fall back
to the default record otherwise. -/
def finalize (data : List LoadedRec) : List LoadedRec :=
  match data.filter (fun e => jvalEqStr e.1 "Waterlord") with
  | e :: _ => [(e.1, fixedIntervalMinutes, e.2.2)]
  | [] => [(.str "Waterlord", fixedIntervalMinutes, .str "2025-09-20 08:00 AM")]

/-- `save_boss_data` (lines 98–100): the JSON value `json.dump` writes for a
record list. -/
def save_boss_data (data : List LoadedRec) : JsonVal :=
  .list (data.map fun e => .list [e.1, .num e.2.1, e.2.2])

/-- `load_boss_data` (lines 48–95): parse + normalize + clean + filter, then
persist the cleaned set (line 93) and return it.  The second component is the
file content written back. -/
def load_boss_data (file : Option JsonVal) : Except PyErr (List LoadedRec × JsonVal) :=
  (parse_records file).map fun data =>
    (finalize data, save_boss_data (finalize data))

/-- A `(name, intervalMinutes, lastSpawnTime)` record as written by the edit
path, embedded as the cleaning loop represents it. -/
def embedRec (r : String × ℚ × String) : LoadedRec := (.str r.1, r.2.1, .str r.2.2)

/-- Files on which `load_boss_data` completes without an uncaught exception:
missing/corrupt (`none`), any string, an empty list or dict, or a list whose
first element is not a dict, or a legacy list of dicts each carrying the three
expected keys.  (Outside this set the source raises: e.g. a non-empty
top-level dict or number, or a list starting with a dict when some entry lacks
a key.) -/
def dictHasKeys : JsonVal → Bool
  | .dict fs =>
      (fs.lookup "name").isSome && (fs.lookup "interval_minutes").isSome &&
        (fs.lookup "last_time_str").isSome
  | _ => false

def goodFile : Option JsonVal → Bool
  | none => true
  | some (.num _) => false
  | some (.str _) => true
  | some (.dict []) => true
  | some (.dict (_ :: _)) => false
  | some (.list []) => true
  | some (.list (x :: xs)) =>
      match x with
      | .dict _ => (x :: xs).all dictHasKeys
      | _ => true

/-! ## Persistence lemmas -/

theorem jvalEqStr_eq (v : JsonVal) (s : String) (h : jvalEqStr v s = true) :
    v = .str s := by
  cases v <;> simp [jvalEqStr] at h
  rw [h]

theorem finalize_shape (data : List LoadedRec) :
    ∃ l, finalize data = [(.str "Waterlord", fixedIntervalMinutes, l)] := by
  rw [finalize]
  split
  · rename_i e rest heq
    have hmem : e ∈ data.filter (fun e => jvalEqStr e.1 "Waterlord") := by
      rw [heq]; exact List.mem_cons_self e rest
    have hpred := List.of_mem_filter hmem
    have := jvalEqStr_eq e.1 "Waterlord" hpred
    exact ⟨e.2.2, by rw [this]⟩
  · exact ⟨.str "2025-09-20 08:00 AM", rfl⟩

theorem mapM_dictToTriple_ok (es : List JsonVal) (h : es.all dictHasKeys = true) :
    ∃ ts, es.mapM dictToTriple = .ok ts := by
  induction es with
  | nil => exact ⟨[], rfl⟩
  | cons e rest ih =>
      rw [List.all_cons, Bool.and_eq_true] at h
      obtain ⟨t, ht⟩ : ∃ t, dictToTriple e = .ok t := by
        cases e with
        | dict fields =>
            have hk := h.1
            simp only [dictHasKeys, Bool.and_eq_true, Option.isSome_iff_exists] at hk
            obtain ⟨⟨⟨n, hn⟩, ⟨i, hi⟩⟩, ⟨l, hl⟩⟩ := hk
            refine ⟨.list [n, i, l], ?_⟩
            rw [dictToTriple]
            simp only [pyGetItem, hn, hi, hl]
            rfl
        | num q => exact Bool.noConfusion h.1
        | str s => exact Bool.noConfusion h.1
        | list elems => exact Bool.noConfusion h.1
      obtain ⟨ts, hts⟩ := ih h.2
      exact ⟨t :: ts, by rw [List.mapM_cons, ht, hts]; rfl⟩

theorem normalize_legacy_ok (v : JsonVal) (h : goodFile (some v) = true) :
    ∃ es, normalize_legacy v = .ok es := by
  cases v with
  | num q => simp [goodFile] at h
  | str s =>
      rw [normalize_legacy]
      by_cases ht : pyTruthy (.str s) = true
      · rw [if_pos ht]
        cases s with
        | mk cs =>
            cases cs with
            | nil => simp [pyTruthy] at ht
            | cons c r => exact ⟨_, rfl⟩
      · rw [if_neg (by simpa using ht)]
        exact ⟨_, rfl⟩
  | dict fields =>
      cases fields with
      | nil => exact ⟨[], rfl⟩
      | cons f r => simp [goodFile] at h
  | list elems =>
      cases elems with
      | nil => exact ⟨[], rfl⟩
      | cons x xs =>
          cases x with
          | dict fields =>
              have hall : (JsonVal.dict fields :: xs).all dictHasKeys = true := h
              obtain ⟨ts, hts⟩ := mapM_dictToTriple_ok (JsonVal.dict fields :: xs) hall
              refine ⟨ts, ?_⟩
              have h2 : normalize_legacy (.list (JsonVal.dict fields :: xs))
                  = (JsonVal.dict fields :: xs).mapM dictToTriple := rfl
              rw [h2, hts]
          | num q => exact ⟨_, rfl⟩
          | str s => exact ⟨_, rfl⟩
          | list l => exact ⟨_, rfl⟩

/-! ## Claim C2 -/

/-- C2 (counterexample to the claim as stated): saving the record set
`[("X", 5, "2025-01-01 01:00 AM")]` and loading it back yields
`[("Waterlord", 20.1666667, "2025-09-20 08:00 AM")]` — the non-Waterlord
record is discarded, so the round trip is not the identity. -/
theorem C2_claim_counterexample :
    ¬ ((load_boss_data (some (save_boss_data [embedRec ("X", 5, "2025-01-01 01:00 AM")]))).map
        Prod.fst = .ok [embedRec ("X", 5, "2025-01-01 01:00 AM")]) := by
  have e : (load_boss_data (some (save_boss_data [embedRec ("X", 5, "2025-01-01 01:00 AM")]))).map
      Prod.fst = .ok [embedRec ("Waterlord", fixedIntervalMinutes, "2025-09-20 08:00 AM")] := rfl
  rw [e]
  intro h
  rw [Except.ok.injEq] at h
  have hname : some (JsonVal.str "Waterlord") = some (JsonVal.str "X") :=
    congrArg (fun l => (l.head?).map Prod.fst) h
  rw [Option.some.injEq, JsonVal.str.injEq] at hname
  exact absurd hname (by decide)

/-- C2 (amended): persisting then reloading a record set is the identity on
the sets `load_boss_data` can reproduce: a single `"Waterlord"` record
carrying the fixed interval `20.1666667`; its `lastSpawnTime` string is
preserved exactly. -/
theorem C2_roundtrip (t : String) :
    load_boss_data (some (save_boss_data [embedRec ("Waterlord", fixedIntervalMinutes, t)]))
      = .ok ([embedRec ("Waterlord", fixedIntervalMinutes, t)],
             save_boss_data [embedRec ("Waterlord", fixedIntervalMinutes, t)]) := rfl

/-! ## Claim C9 -/

/-- C9 (counterexample to the claim as stated): the claim quantifies over
every possible file contents, but on the JSON file `[{}]` (a list holding one
empty dict) `load_boss_data` raises an uncaught `KeyError` instead of
returning a record list. -/
theorem C9_claim_counterexample :
    load_boss_data (some (.list [.dict []])) = .error .keyError := rfl

/-- C9 (amended): whenever `load_boss_data` returns at all, it returns exactly
one record, whose name is `"Waterlord"` and whose interval is the hard-coded
`20.1666667`; records with any other name are discarded and any stored
interval is overridden. -/
theorem C9_only_waterlord (file : Option JsonVal) (res : List LoadedRec) (saved : JsonVal)
    (h : load_boss_data file = .ok (res, saved)) :
    ∃ l, res = [(.str "Waterlord", fixedIntervalMinutes, l)] := by
  rw [load_boss_data] at h
  cases hp : parse_records file with
  | error e => rw [hp] at h; exact absurd h (by simp [Except.map])
  | ok data =>
      rw [hp] at h
      simp only [Except.map, Except.ok.injEq, Prod.mk.injEq] at h
      obtain ⟨l, hl⟩ := finalize_shape data
      exact ⟨l, by rw [← h.1, hl]⟩

/-- Witness for C9: the missing-file case, which loads the default set. -/
theorem C9_witness :
    ∃ l, default_boss_data = [(.str "Waterlord", fixedIntervalMinutes, l)] :=
  C9_only_waterlord none default_boss_data (save_boss_data default_boss_data) rfl

/-! ## Claim C8 -/

/-- C8 (counterexample to the claim as stated): loading is not always
non-fatal — the syntactically valid JSON file `[{"name": "A"}]` (legacy dict
shape with the interval and last-time keys missing) raises an uncaught
`KeyError`. -/
theorem C8_claim_counterexample :
    load_boss_data (some (.list [.dict [("name", .str "A")]])) = .error .keyError := rfl

/-- C8 (amended): for every file that is missing/corrupt, or whose JSON shape
is one the loader handles (any string, empty list or dict, a list not led by
a dict, or a legacy list of dicts that all carry the three expected keys),
loading succeeds; a missing or corrupt file falls back to the built-in
default record set, which is then persisted; a legacy dict entry is
normalized to the `(name, interval, last_time)` triple; and a non-numeric
interval string is replaced by the documented default `20.1666667`.  (For
valid JSON outside this shape family, e.g. `[{}]`, the loader raises.) -/
theorem C8_load_never_fatal (file : Option JsonVal)
    (fs : List (String × JsonVal)) (n i l : JsonVal) (s : String)
    (hf : goodFile file = true)
    (hn : fs.lookup "name" = some n)
    (hi : fs.lookup "interval_minutes" = some i)
    (hl : fs.lookup "last_time_str" = some l)
    (hs : parseFloatStr s = none) :
    (∃ r, load_boss_data file = .ok r) ∧
    load_boss_data none = .ok (default_boss_data, save_boss_data default_boss_data) ∧
    normalize_legacy (.list [.dict fs]) = .ok [.list [n, i, l]] ∧
    cleanEntry (.list [n, .str s, l]) = some (n, fixedIntervalMinutes, l) := by
  refine ⟨?_, rfl, ?_, ?_⟩
  · cases file with
    | none => exact ⟨_, rfl⟩
    | some v =>
        obtain ⟨es, hes⟩ := normalize_legacy_ok v hf
        exact ⟨_, by rw [load_boss_data, parse_records, hes]; rfl⟩
  · have h2 : normalize_legacy (.list [.dict fs]) = List.mapM dictToTriple [JsonVal.dict fs] :=
      rfl
    rw [h2, List.mapM_cons, dictToTriple]
    simp only [pyGetItem, hn, hi, hl]
    rfl
  · rw [cleanEntry, pyFloat, hs]
    rfl

/-- Witness for C8: the legacy one-dict file
`[{"name": "B", "interval_minutes": "x", "last_time_str": "t"}]` with the
non-numeric interval string `"x"`. -/
theorem C8_witness :
    goodFile (some (.list [.dict [("name", .str "B"), ("interval_minutes", .str "x"),
        ("last_time_str", .str "t")]])) = true ∧
    ((∃ r, load_boss_data (some (.list [.dict [("name", .str "B"),
          ("interval_minutes", .str "x"), ("last_time_str", .str "t")]])) = .ok r) ∧
     load_boss_data none = .ok (default_boss_data, save_boss_data default_boss_data) ∧
     normalize_legacy (.list [.dict [("name", .str "B"), ("interval_minutes", .str "x"),
          ("last_time_str", .str "t")]])
       = .ok [.list [.str "B", .str "x", .str "t"]] ∧
     cleanEntry (.list [.str "B", .str "x", .str "t"])
       = some (.str "B", fixedIntervalMinutes, .str "t")) :=
  ⟨rfl,
   C8_load_never_fatal
     (some (.list [.dict [("name", .str "B"), ("interval_minutes", .str "x"),
        ("last_time_str", .str "t")]]))
     [("name", .str "B"), ("interval_minutes", .str "x"), ("last_time_str", .str "t")]
     (.str "B") (.str "x") (.str "t") "x" rfl rfl rfl rfl rfl⟩

/-! ## Edit path (`TimerEntry.__init__`, `log_edit`, the save-button handler,
lines 103–118, 129–140, 479–509) -/

/-- Civil calendar date (year, month, day) from a day count since
1970-01-01, Hinnant's algorithm.  Integer `/` here is Euclidean division,
which agrees with the C original's floor-adjusted truncating division. -/
def civilFromDays (z0 : ℤ) : ℤ × ℤ × ℤ :=
  let z := z0 + 719468
  let era := z / 146097
  let doe := z - era * 146097
  let yoe := (doe - doe / 1460 + doe / 36524 - doe / 146096) / 365
  let y := yoe + era * 400
  let doy := doe - (365 * yoe + yoe / 4 - yoe / 100)
  let mp := (5 * doy + 2) / 153
  let d := doy - (153 * mp + 2) / 5 + 1
  let m := mp + (if mp < 10 then 3 else -9)
  (y + (if m ≤ 2 then 1 else 0), m, d)

/-- `strftime("%Y-%m-%d %I:%M %p")` on a model timestamp: the format used for
`last_time_str`, history entries and the edit log. -/
def fmtDateTime (t : ℤ) : String :=
  let days := t / 86400
  let secs := (t % 86400).toNat
  let ymd := civilFromDays days
  let hour := secs / 3600
  let minute := secs % 3600 / 60
  let h12 := if hour % 12 = 0 then 12 else hour % 12
  let ampm := if hour < 12 then "AM" else "PM"
  toString ymd.1 ++ "-" ++ pad2 ymd.2.1.toNat ++ "-" ++ pad2 ymd.2.2.toNat ++ " " ++
    pad2 h12 ++ ":" ++ pad2 minute ++ " " ++ ampm

/-- `TimerEntry` (lines 129–140): name, the minute interval, the derived
whole-second interval `int(interval_minutes * 60)`, the parsed last-kill time
and the projected next time. -/
structure TimerEntry where
  name : String
  interval_minutes : ℚ
  interval : ℤ
  last_time : ℤ
  next_time : ℤ

/-- `TimerEntry.__init__` with `last_time` standing for the timestamp parsed
from `last_time_str`: `interval = int(interval_minutes * 60)`,
`next_time = last_time + interval`. -/
def TimerEntry.make (name : String) (interval_minutes : ℚ) (last_time : ℤ) : TimerEntry :=
  let interval := pyInt (interval_minutes * 60)
  ⟨name, interval_minutes, interval, last_time, last_time + interval⟩

/-- One entry of the persisted history file (`log_edit`, lines 107–113). -/
structure HistEntry where
  boss : String
  old_time : String
  new_time : String
  edited_at : String
  edited_by : String

/-- `log_edit` (lines 103–118): load the history, append one entry stamped
with the current time and editor, write it back.  The loaded and written
history lists are the argument and the result. -/
def log_edit (history : List HistEntry) (boss_name old_time new_time : String)
    (now : ℤ) (edited_by : String) : List HistEntry :=
  history ++ [⟨boss_name, old_time, new_time, fmtDateTime now, edited_by⟩]

/-- Result of one save-button press: the session timer list, the boss file
written by `save_boss_data`, and the history file written by `log_edit`. -/
structure EditResult where
  timers : List TimerEntry
  saved : JsonVal
  history : List HistEntry

/-- The save-button handler (lines 479–509): remember the old formatted time,
set `last_time` to the edited value and `next_time` to it plus the interval,
persist all timers, then log the edit.  `none` models the impossible
out-of-range index (the loop enumerates the list itself). -/
def save_button (timers : List TimerEntry) (i : ℕ) (new_last now : ℤ)
    (user : String) (history : List HistEntry) : Option EditResult :=
  match timers[i]? with
  | none => none
  | some timer =>
      let old_time_str := fmtDateTime timer.last_time
      let updated_last_time := new_last
      let updated_next_time := new_last + timer.interval
      let timers' := timers.set i
        { timer with last_time := updated_last_time, next_time := updated_next_time }
      let saved := save_boss_data (timers'.map fun t =>
        (JsonVal.str t.name, t.interval_minutes, JsonVal.str (fmtDateTime t.last_time)))
      let history' := log_edit history timer.name old_time_str
        (fmtDateTime updated_last_time) now user
      some ⟨timers', saved, history'⟩

/-! ## Claim C7 -/

/-- C7: an edit that changes a boss's `lastSpawnTime` from T1 to T2 appends
exactly one history entry, with `old_time` the formatted T1 and `new_time`
the formatted T2; the edited timer's `last_time` becomes T2 and its
`next_time` is recomputed as T2 plus the interval; and the persisted record
for that boss carries the formatted T2. -/
theorem C7_edit_effect (timers : List TimerEntry) (i : ℕ) (timer : TimerEntry)
    (hti : timers[i]? = some timer) (t2 now : ℤ) (user : String)
    (history : List HistEntry) :
    ∃ r, save_button timers i t2 now user history = some r ∧
      r.history = history ++
        [⟨timer.name, fmtDateTime timer.last_time, fmtDateTime t2, fmtDateTime now, user⟩] ∧
      r.timers[i]? = some { timer with last_time := t2, next_time := t2 + timer.interval } ∧
      ∃ es, r.saved = JsonVal.list es ∧
        es[i]? = some (.list [.str timer.name, .num timer.interval_minutes,
          .str (fmtDateTime t2)]) := by
  have hlen : i < timers.length := by
    rcases List.getElem?_eq_some.mp hti with ⟨h, _⟩
    exact h
  refine ⟨_, by rw [save_button, hti], ?_, ?_, ?_⟩
  · rfl
  · exact List.getElem?_set_eq_of_lt _ hlen
  · refine ⟨_, rfl, ?_⟩
    rw [List.getElem?_map, List.getElem?_map, List.getElem?_set_eq_of_lt _ hlen]
    rfl

/-- Witness for C7: editing the single Waterlord timer from T1 = 0 to
T2 = 60 at `now` = 120. -/
theorem C7_witness :
    ([TimerEntry.make "Waterlord" fixedIntervalMinutes 0] :
        List TimerEntry)[0]? = some (TimerEntry.make "Waterlord" fixedIntervalMinutes 0) ∧
    ∃ r, save_button [TimerEntry.make "Waterlord" fixedIntervalMinutes 0] 0 60 120 "Ann" []
        = some r ∧
      r.history = [] ++
        [⟨(TimerEntry.make "Waterlord" fixedIntervalMinutes 0).name,
          fmtDateTime (TimerEntry.make "Waterlord" fixedIntervalMinutes 0).last_time,
          fmtDateTime 60, fmtDateTime 120, "Ann"⟩] ∧
      r.timers[0]? = some { TimerEntry.make "Waterlord" fixedIntervalMinutes 0 with
        last_time := 60,
        next_time := 60 + (TimerEntry.make "Waterlord" fixedIntervalMinutes 0).interval } ∧
      ∃ es, r.saved = JsonVal.list es ∧
        es[0]? = some (.list [.str (TimerEntry.make "Waterlord" fixedIntervalMinutes 0).name,
          .num (TimerEntry.make "Waterlord" fixedIntervalMinutes 0).interval_minutes,
          .str (fmtDateTime 60)]) :=
  ⟨rfl, C7_edit_effect [TimerEntry.make "Waterlord" fixedIntervalMinutes 0] 0
    (TimerEntry.make "Waterlord" fixedIntervalMinutes 0) rfl 60 120 "Ann" []⟩
